import Mathlib

/-!
Verification of the developer-profile-hub repository's specification.

The development shallowly embeds:
  * the shared data model (`src/shared/schema.ts`): `Project`, `InsertProject`,
    `Profile`;
  * the server store (`src/server/storage.ts`, class `MemStorage`): the
    `projects` JavaScript `Map` is modelled as an insertion-ordered
    association list, `randomUUID` as an id-generator function consumed at an
    increasing index;
  * the Express routes (`registerRoutes`): request bodies as a small JSON
    value type, `insertProjectSchema.safeParse` as an `Option`-returning
    parser, responses as status plus body;
  * the client mutation coordinator (`src/client/src/pages/home.tsx`): the
    React-Query cache as `Option (List Project)` and the
    onMutate/onError/onSettled lifecycle of the create/update/delete
    mutations as an explicit trace.
-/

/-- `Project` from `src/shared/schema.ts`: row of the `projects` table. -/
structure Project where
  id : String
  title : String
  description : String
  image : String
  tech : List String
deriving DecidableEq, Repr

/-- `InsertProject` from `src/shared/schema.ts`: `insertProjectSchema` picks
`title`, `description`, `image`, `tech` (no `id`). -/
structure InsertProject where
  title : String
  description : String
  image : String
  tech : List String
deriving DecidableEq, Repr

/-- The `socials` field of `Profile` in `src/shared/schema.ts`. -/
structure Socials where
  github : String
  linkedin : String
  twitter : String
deriving DecidableEq, Repr

/-- `Profile` interface from `src/shared/schema.ts`. -/
structure Profile where
  name : String
  title : String
  bio : String
  location : String
  email : String
  website : String
  profilePicture : String
  skills : List String
  socials : Socials
deriving DecidableEq, Repr

/-- The record built by `{ ...insertProject, id }` in
`MemStorage.createProject` / `MemStorage.updateProject`. -/
def projOf (id : String) (ip : InsertProject) : Project :=
  { id := id, title := ip.title, description := ip.description,
    image := ip.image, tech := ip.tech }

/-! ## JavaScript `Map` model

`MemStorage.projects` is a JS `Map<string, Project>`: insertion-ordered,
`set` on an existing key replaces the value in place, `set` on a fresh key
appends, `delete` removes the entry and returns whether it existed,
`values()` iterates in insertion order.  We model it as an association
list. -/

/-- JS `Map.has`. -/
def mapHas (m : List (String × Project)) (k : String) : Bool :=
  m.any (fun kv => kv.1 == k)

/-- JS `Map.set`: replace in place when the key is present, append
otherwise. -/
def mapSet (m : List (String × Project)) (k : String) (v : Project) :
    List (String × Project) :=
  if mapHas m k then
    m.map (fun kv => if kv.1 == k then (k, v) else kv)
  else
    m ++ [(k, v)]

/-- JS `Map.delete` (the resulting map; the returned Boolean is `mapHas`). -/
def mapDelete (m : List (String × Project)) (k : String) :
    List (String × Project) :=
  m.filter (fun kv => kv.1 != k)

/-- JS `Map.get` as used through `values()`/`has`; lookup by key. -/
def mapGet (m : List (String × Project)) (k : String) : Option Project :=
  (m.find? (fun kv => kv.1 == k)).map (fun kv => kv.2)

/-! ## `MemStorage` (`src/server/storage.ts`)

`randomUUID` is modelled as an id-generator function `idGen : Nat → String`
together with the index `nextIdx` of the next value to draw: each call to
`randomUUID()` in the source corresponds to reading `idGen nextIdx` and
incrementing `nextIdx`. -/

/-- State of a `MemStorage` instance: the `projects` map, the `profile`
singleton, and the `randomUUID` supply. -/
structure MemStorage where
  projects : List (String × Project)
  profile : Profile
  idGen : Nat → String
  nextIdx : Nat

/-- The seed profile assigned in the `MemStorage` constructor. -/
def defaultProfile : Profile :=
  { name := "Vaibhav Nagdeo"
    title := "Full Stack Developer"
    bio := "Passionate about building scalable web applications and intuitive user experiences. Specialized in React, Node.js, and cloud architecture. Always learning and exploring new technologies to solve real-world problems."
    location := "Hyderabad, India"
    email := "vaibhavnagdeo@gmail.com"
    website := "https://Vaibhav.dev"
    profilePicture := "https://images.unsplash.com/photo-1507003211169-0a1dd7228f2d?w=400&h=400&fit=crop&crop=faces"
    skills := ["React", "TypeScript", "Node.js", "GraphQL", "AWS", "Tailwind CSS", "PostgreSQL", "Next.js"]
    socials :=
      { github := "https://github.com/vaibhavnagdeo18"
        linkedin := "https://www.linkedin.com/in/vaibhavnagdeo/"
        twitter := "https://x.com/vaibhavnagdeo" } }

/-- The two seed projects of `MemStorage.seedProjects`, each carrying the
`randomUUID()` value drawn while building the literal. -/
def seedProjects (id0 id1 : String) : List Project :=
  [ { id := id0
      title := "Gym Management System"
      description := "Full stack gym management app with member tracking, payments, and admin dashboard."
      image := "https://images.unsplash.com/photo-1571019613914-85f342c1d4b1"
      tech := ["React", "Node.js", "Firebase"] },
    { id := id1
      title := "Swiggy Clone"
      description := "Food delivery app with real-time order tracking, authentication and payment integration."
      image := "https://images.unsplash.com/photo-1504674900247-0877df9cc836"
      tech := ["Kotlin", "Firebase", "REST API"] } ]

/-- The `MemStorage` constructor: empty map, seed profile, then
`seedProjects` inserts the two seed records with `p => set(p.id, p)`,
consuming `idGen 0` and `idGen 1`. -/
def mkMemStorage (idGen : Nat → String) : MemStorage :=
  { projects :=
      (seedProjects (idGen 0) (idGen 1)).foldl
        (fun m p => mapSet m p.id p) []
    profile := defaultProfile
    idGen := idGen
    nextIdx := 2 }

/-- `MemStorage.getProjects`: `Array.from(this.projects.values())`. -/
def getProjects (s : MemStorage) : List Project :=
  s.projects.map (fun kv => kv.2)

/-- `MemStorage.createProject`: draw a fresh id from `randomUUID`, store
`{ ...insertProject, id }`, return it. -/
def createProject (s : MemStorage) (ip : InsertProject) :
    Project × MemStorage :=
  let id := s.idGen s.nextIdx
  let project := projOf id ip
  (project,
    { s with projects := mapSet s.projects id project,
             nextIdx := s.nextIdx + 1 })

/-- `MemStorage.updateProject`: `undefined` when the id is absent, otherwise
store and return `{ ...insertProject, id }`. -/
def updateProject (s : MemStorage) (id : String) (ip : InsertProject) :
    Option Project × MemStorage :=
  if mapHas s.projects id then
    let project := projOf id ip
    (some project, { s with projects := mapSet s.projects id project })
  else
    (none, s)

/-- `MemStorage.deleteProject`: `this.projects.delete(id)`. -/
def deleteProject (s : MemStorage) (id : String) : Bool × MemStorage :=
  (mapHas s.projects id, { s with projects := mapDelete s.projects id })

/-- `MemStorage.getProfile`. -/
def getProfile (s : MemStorage) : Profile :=
  s.profile

/-- `MemStorage.updateProfile`: unconditionally overwrite the singleton and
return it. -/
def updateProfile (s : MemStorage) (p : Profile) : Profile × MemStorage :=
  (p, { s with profile := p })

/-! ## Operation sequences over the project store -/

/-- One store-level project operation. -/
inductive StoreOp where
  | create (ip : InsertProject)
  | update (id : String) (ip : InsertProject)
  | del (id : String)
deriving DecidableEq, Repr

/-- Run a sequence of operations, collecting the id of every record returned
by `createProject`, in order. -/
def runOps (s : MemStorage) : List StoreOp → MemStorage × List String
  | [] => (s, [])
  | op :: rest =>
    match op with
    | .create ip =>
        let (p, s') := createProject s ip
        let (s'', ids) := runOps s' rest
        (s'', p.id :: ids)
    | .update id ip =>
        let (_, s') := updateProject s id ip
        runOps s' rest
    | .del id =>
        let (_, s') := deleteProject s id
        runOps s' rest

/-! ## JSON bodies and `insertProjectSchema` (`src/shared/schema.ts`)

Request bodies are modelled as a small JSON value type.
`insertProjectSchema = createInsertSchema(projects).pick(...)` requires the
body to be an object whose `title`, `description` and `image` fields are
strings and whose `tech` field is an array of strings (all four columns are
`notNull`). -/

/-- JSON values, enough for the request bodies the routes receive. -/
inductive Json where
  | str (s : String)
  | num (n : Int)
  | boolean (b : Bool)
  | arr (xs : List Json)
  | obj (fields : List (String × Json))
  | null

/-- Look up a field of a JSON object (`none` on non-objects). -/
def Json.getField : Json → String → Option Json
  | .obj fields, k => (fields.find? (fun kv => kv.1 == k)).map (fun kv => kv.2)
  | _, _ => none

/-- Read a JSON value as a string. -/
def Json.asStr : Json → Option String
  | .str s => some s
  | _ => none

/-- Read a JSON value as an array of strings. -/
def Json.asStrList : Json → Option (List String)
  | .arr xs => xs.mapM Json.asStr
  | _ => none

/-- `insertProjectSchema.safeParse`: succeeds exactly when the body carries
string `title`, `description`, `image` and a string-array `tech`. -/
def safeParseInsertProject (body : Json) : Option InsertProject := do
  let title ← (body.getField "title").bind Json.asStr
  let description ← (body.getField "description").bind Json.asStr
  let image ← (body.getField "image").bind Json.asStr
  let tech ← (body.getField "tech").bind Json.asStrList
  pure { title := title, description := description,
         image := image, tech := tech }

/-! ## Express routes (`registerRoutes`, `src/unnamed/part_000`) -/

/-- Response body of a route handler. -/
inductive ResBody where
  | projectVal (p : Project)
  | projectListVal (ps : List Project)
  | profileVal (p : Profile)
  | validationError
  | message (s : String)
  | bioVal (s : String)
deriving DecidableEq, Repr

/-- An HTTP response: status (200 is Express's `res.json` default) and
body. -/
structure Response where
  status : Nat
  body : ResBody
deriving DecidableEq, Repr

/-- `GET /api/projects`. -/
def getProjectsRoute (s : MemStorage) : Response :=
  { status := 200, body := .projectListVal (getProjects s) }

/-- `POST /api/projects`: 400 with a structured error when `safeParse`
fails, otherwise create and return the project. -/
def postProjectsRoute (s : MemStorage) (body : Json) :
    Response × MemStorage :=
  match safeParseInsertProject body with
  | none => ({ status := 400, body := .validationError }, s)
  | some ip =>
    let (p, s') := createProject s ip
    ({ status := 200, body := .projectVal p }, s')

/-- `PUT /api/projects/:id`: 400 when `safeParse` fails, 404 when
`updateProject` yields `undefined`, otherwise the updated project. -/
def putProjectRoute (s : MemStorage) (id : String) (body : Json) :
    Response × MemStorage :=
  match safeParseInsertProject body with
  | none => ({ status := 400, body := .validationError }, s)
  | some ip =>
    match updateProject s id ip with
    | (none, s') => ({ status := 404, body := .message "Project not found" }, s')
    | (some p, s') => ({ status := 200, body := .projectVal p }, s')

/-- `DELETE /api/projects/:id`: 404 when `deleteProject` returns `false`,
otherwise a success acknowledgement. -/
def deleteProjectRoute (s : MemStorage) (id : String) :
    Response × MemStorage :=
  match deleteProject s id with
  | (false, s') => ({ status := 404, body := .message "Project not found" }, s')
  | (true, s') =>
    ({ status := 200, body := .message "Project deleted successfully" }, s')

/-- `PUT /api/profile`: unconditionally `storage.updateProfile(req.body)`.
The body is already the decoded `Profile` (no validation in the route). -/
def putProfileRoute (s : MemStorage) (p : Profile) :
    Response × MemStorage :=
  let (p', s') := updateProfile s p
  ({ status := 200, body := .profileVal p' }, s')

/-- The bio string built by `POST /api/generate-bio`: a single template
interpolating `title` and `skills.join(", ")`. -/
def generateBio (title : String) (skills : List String) : String :=
  "A passionate " ++ title ++ " skilled in " ++
    String.intercalate ", " skills ++
    ", focused on building scalable and efficient applications."

/-- `POST /api/generate-bio`: destructure `skills` and `title` from the body
and answer `{ bio }`. -/
def generateBioRoute (title : String) (skills : List String) : Response :=
  { status := 200, body := .bioVal (generateBio title skills) }

/-! ## Client mutation coordinator (`src/client/src/pages/home.tsx`)

The React-Query cache entry for `["/api/projects"]` is
`Option (List Project)` (`getQueryData` may be `undefined`).  Each of
`createProjectMutation`, `updateProjectMutation`, `deleteProjectMutation`
runs the same lifecycle: `onMutate` snapshots the cache and publishes the
optimistic view, `onError` writes the snapshot back, `onSettled`
invalidates the query so that the cache is refetched from the server. -/

/-- A project mutation issued by the client; `now` is the `Date.now()`
value read while building the optimistic create record. -/
inductive MutationOp where
  | create (values : InsertProject) (now : Nat)
  | update (id : String) (values : InsertProject)
  | del (id : String)
deriving DecidableEq, Repr

/-- The temporary placeholder id `"temp-" + Date.now()` used by the create
mutation's optimistic record. -/
def tempIdOf (now : Nat) : String :=
  "temp-" ++ toString now

/-- The `onMutate` cache updater of each mutation:
create appends `{ ...newProject, id: "temp-" + Date.now() }` to
`(old || [])`; update maps `p.id === id ? { ...p, ...values } : p` over
`old?`; delete filters `p.id !== id` over `old?`. -/
def applyOptimistic (op : MutationOp) (old : Option (List Project)) :
    Option (List Project) :=
  match op with
  | .create values now =>
      some (old.getD [] ++ [projOf (tempIdOf now) values])
  | .update id values =>
      old.map (List.map (fun p =>
        if p.id == id then
          { p with title := values.title, description := values.description,
                   image := values.image, tech := values.tech }
        else p))
  | .del id =>
      old.map (List.filter (fun p => p.id != id))

/-- The successive cache states of one mutation invocation. -/
structure MutationTrace where
  snapshot : Option (List Project)
  optimistic : Option (List Project)
  afterOutcome : Option (List Project)
  settled : Option (List Project)
deriving DecidableEq, Repr

/-- One run of a mutation: `onMutate` stores `previousProjects` and
publishes the optimistic view; on remote failure `onError` calls
`setQueryData(key, context?.previousProjects)`, which restores the
snapshot when it is defined but is a no-op when `previousProjects` is
`undefined` (TanStack Query ignores a `setQueryData` whose value is
undefined), so in that case the optimistic view stays in the cache; on
success the cache is left as published; `onSettled` invalidates
`["/api/projects"]` on both paths, so the cache becomes the refetched
server truth. -/
def runMutation (cache0 : Option (List Project)) (op : MutationOp)
    (remoteOk : Bool) (serverTruth : List Project) : MutationTrace :=
  let snapshot := cache0
  let optimistic := applyOptimistic op cache0
  let afterOutcome :=
    if remoteOk then optimistic
    else
      match snapshot with
      | some prev => some prev
      | none => optimistic
  { snapshot := snapshot
    optimistic := optimistic
    afterOutcome := afterOutcome
    settled := some serverTruth }

/-! ## Helper lemmas about the map model -/

theorem mapHas_iff_mem_keys (m : List (String × Project)) (k : String) :
    mapHas m k = true ↔ k ∈ m.map Prod.fst := by
  simp [mapHas, List.any_eq_true, List.mem_map]

theorem mapDelete_of_not_has (m : List (String × Project)) (k : String)
    (h : mapHas m k = false) : mapDelete m k = m := by
  apply List.filter_eq_self.mpr
  intro kv hmem
  have := (List.any_eq_false.mp h) kv hmem
  simpa [bne_iff_ne] using this

theorem mapSetFn_pred_self (k : String) (v : Project) :
    ((fun kv : String × Project => kv.1 == k) ∘
      (fun kv : String × Project => if kv.1 == k then (k, v) else kv))
      = (fun kv : String × Project => kv.1 == k) := by
  funext kv
  by_cases h : kv.1 = k <;> simp [h]

theorem mapSetFn_pred_other (k k' : String) (v : Project) :
    ((fun kv : String × Project => kv.1 == k') ∘
      (fun kv : String × Project => if kv.1 == k then (k, v) else kv))
      = (fun kv : String × Project => kv.1 == k') := by
  funext kv
  by_cases h : kv.1 = k <;> simp [h]

theorem mapGet_mapSet_self (m : List (String × Project)) (k : String)
    (v : Project) : mapGet (mapSet m k v) k = some v := by
  cases h : mapHas m k with
  | true =>
    have hsome : (m.find? (fun kv => kv.1 == k)).isSome := by
      rw [List.find?_isSome]
      simpa [mapHas, List.any_eq_true] using h
    rcases hopt : m.find? (fun kv => kv.1 == k) with _ | kv0
    · rw [hopt] at hsome
      simp at hsome
    · have hp := List.find?_some hopt
      have hk0 : kv0.1 = k := by simpa using hp
      simp only [mapGet, mapSet, h, if_true]
      rw [List.find?_map, mapSetFn_pred_self k v, hopt]
      simp [hk0]
  | false =>
    have hfind : m.find? (fun kv => kv.1 == k) = none := by
      rw [List.find?_eq_none]
      intro kv hmem
      have := (List.any_eq_false.mp h) kv hmem
      simpa using this
    simp only [mapGet, mapSet, h]
    rw [if_neg (by simp), List.find?_append, hfind]
    simp [List.find?_cons]

theorem mapGet_mapSet_other (m : List (String × Project)) (k k' : String)
    (v : Project) (hne : k' ≠ k) :
    mapGet (mapSet m k v) k' = mapGet m k' := by
  cases h : mapHas m k with
  | true =>
    simp only [mapGet, mapSet, h, if_true]
    rw [List.find?_map, mapSetFn_pred_other k k' v]
    rcases hopt : m.find? (fun kv => kv.1 == k') with _ | kv0
    · rw [hopt]
      simp
    · have hp := List.find?_some hopt
      have hk0 : kv0.1 = k' := by simpa using hp
      rw [hopt]
      simp [hk0, hne]
  | false =>
    have hb : (k == k') = false := by simpa using Ne.symm hne
    simp only [mapGet, mapSet, h]
    rw [if_neg (by simp), List.find?_append]
    simp [List.find?_cons, hb]

theorem mapSet_keys_of_has (m : List (String × Project)) (k : String)
    (v : Project) (h : mapHas m k = true) :
    (mapSet m k v).map Prod.fst = m.map Prod.fst := by
  simp only [mapSet, h, if_true, List.map_map]
  apply List.map_congr_left
  intro kv _
  by_cases h1 : kv.1 = k <;> simp [h1]

theorem mapSet_keys_nodup (m : List (String × Project)) (k : String)
    (v : Project) (h : (m.map Prod.fst).Nodup) :
    ((mapSet m k v).map Prod.fst).Nodup := by
  cases hk : mapHas m k with
  | true =>
    rw [mapSet_keys_of_has m k v hk]
    exact h
  | false =>
    have hnotmem : k ∉ m.map Prod.fst := by
      intro hmem
      rw [(mapHas_iff_mem_keys m k).mpr hmem] at hk
      cases hk
    simp only [mapSet, hk]
    rw [if_neg (by simp)]
    simp [List.nodup_append, h, hnotmem]

theorem mapDelete_keys_nodup (m : List (String × Project)) (k : String)
    (h : (m.map Prod.fst).Nodup) :
    ((mapDelete m k).map Prod.fst).Nodup :=
  h.sublist ((List.filter_sublist m).map Prod.fst)

/-! ## Lemmas about operation sequences -/

/-- Number of `create` operations in a sequence. -/
def numCreates : List StoreOp → Nat
  | [] => 0
  | StoreOp.create _ :: rest => numCreates rest + 1
  | StoreOp.update _ _ :: rest => numCreates rest
  | StoreOp.del _ :: rest => numCreates rest

/-- The ids returned by the `create` calls of a run, in order. -/
def issuedIds (s : MemStorage) (ops : List StoreOp) : List String :=
  (runOps s ops).2

theorem updateProject_snd_idGen (s : MemStorage) (id : String)
    (ip : InsertProject) : (updateProject s id ip).2.idGen = s.idGen := by
  unfold updateProject
  split <;> rfl

theorem updateProject_snd_nextIdx (s : MemStorage) (id : String)
    (ip : InsertProject) : (updateProject s id ip).2.nextIdx = s.nextIdx := by
  unfold updateProject
  split <;> rfl

theorem issuedIds_eq_range (ops : List StoreOp) :
    ∀ s : MemStorage,
      issuedIds s ops = (List.range' s.nextIdx (numCreates ops)).map s.idGen := by
  induction ops with
  | nil => intro s; rfl
  | cons op rest ih =>
    intro s
    cases op with
    | create ip =>
      have h := ih { s with
        projects := mapSet s.projects (s.idGen s.nextIdx)
          (projOf (s.idGen s.nextIdx) ip),
        nextIdx := s.nextIdx + 1 }
      simp only [issuedIds, runOps, createProject, numCreates] at h ⊢
      rw [h]
      rfl
    | update id ip =>
      have h := ih (updateProject s id ip).2
      simp only [issuedIds, runOps, numCreates] at h ⊢
      rw [h, updateProject_snd_idGen, updateProject_snd_nextIdx]
    | del id =>
      have h := ih (deleteProject s id).2
      simp only [issuedIds, runOps, numCreates] at h ⊢
      rw [h]
      rfl

/-! ## Store invariants -/

/-- Every record of the map is stored under its own `id` field. -/
def WellKeyed (m : List (String × Project)) : Prop :=
  ∀ kv ∈ m, kv.1 = kv.2.id

/-- The invariant maintained by `MemStorage`: records keyed by their own id,
and keys pairwise distinct (a JS `Map` cannot hold a key twice). -/
def StoreInv (s : MemStorage) : Prop :=
  WellKeyed s.projects ∧ (s.projects.map Prod.fst).Nodup

theorem wellKeyed_mapSet (m : List (String × Project)) (k : String)
    (v : Project) (hw : WellKeyed m) (hk : k = v.id) :
    WellKeyed (mapSet m k v) := by
  intro kv hmem
  unfold mapSet at hmem
  split at hmem
  · rcases List.mem_map.mp hmem with ⟨kv0, hkv0, heq⟩
    by_cases h1 : kv0.1 = k
    · rw [← heq]
      simp [h1, hk]
    · rw [← heq]
      simpa [h1] using hw kv0 hkv0
  · rcases List.mem_append.mp hmem with h1 | h1
    · exact hw kv h1
    · simp only [List.mem_singleton] at h1
      rw [h1]
      exact hk

theorem wellKeyed_mapDelete (m : List (String × Project)) (k : String)
    (hw : WellKeyed m) : WellKeyed (mapDelete m k) := by
  intro kv hmem
  exact hw kv (List.mem_of_mem_filter hmem)

theorem storeInv_mk (idGen : Nat → String) : StoreInv (mkMemStorage idGen) := by
  constructor
  · exact wellKeyed_mapSet _ _ _
      (wellKeyed_mapSet _ _ _ (fun kv h => absurd h (List.not_mem_nil kv)) rfl)
      rfl
  · exact mapSet_keys_nodup _ _ _ (mapSet_keys_nodup _ _ _ List.nodup_nil)

theorem storeInv_create (s : MemStorage) (ip : InsertProject)
    (h : StoreInv s) : StoreInv (createProject s ip).2 :=
  ⟨wellKeyed_mapSet _ _ _ h.1 rfl, mapSet_keys_nodup _ _ _ h.2⟩

theorem storeInv_update (s : MemStorage) (id : String) (ip : InsertProject)
    (h : StoreInv s) : StoreInv (updateProject s id ip).2 := by
  unfold updateProject
  split
  · exact ⟨wellKeyed_mapSet _ _ _ h.1 rfl, mapSet_keys_nodup _ _ _ h.2⟩
  · exact h

theorem storeInv_delete (s : MemStorage) (id : String)
    (h : StoreInv s) : StoreInv (deleteProject s id).2 :=
  ⟨wellKeyed_mapDelete _ _ h.1, mapDelete_keys_nodup _ _ h.2⟩

theorem storeInv_runOps (ops : List StoreOp) :
    ∀ s : MemStorage, StoreInv s → StoreInv (runOps s ops).1 := by
  induction ops with
  | nil => intro s h; exact h
  | cons op rest ih =>
    intro s h
    cases op with
    | create ip => exact ih _ (storeInv_create s ip h)
    | update id ip => exact ih _ (storeInv_update s id ip h)
    | del id => exact ih _ (storeInv_delete s id h)

/-! ## Claim theorems -/

/-- C9: after any sequence of seed/createProject/updateProject/deleteProject
operations, every record in the project map sits under a key equal to its
own `id` field, and consequently each id occurs at most once in the
collection returned by `getProjects`. -/
theorem store_key_eq_id (idGen : Nat → String) (ops : List StoreOp) :
    WellKeyed ((runOps (mkMemStorage idGen) ops).1.projects) ∧
    ((getProjects ((runOps (mkMemStorage idGen) ops).1)).map Project.id).Nodup := by
  have h := storeInv_runOps ops (mkMemStorage idGen) (storeInv_mk idGen)
  refine ⟨h.1, ?_⟩
  have hmap : (getProjects ((runOps (mkMemStorage idGen) ops).1)).map Project.id
      = ((runOps (mkMemStorage idGen) ops).1.projects).map Prod.fst := by
    simp only [getProjects, List.map_map]
    apply List.map_congr_left
    intro kv hmem
    simpa using (h.1 kv hmem).symm
  rw [hmap]
  exact h.2

/-- C3: over any sequence of create/update/delete operations starting from
the seeded store, every id returned by `createProject` is distinct from all
previously issued ids and from the two seed ids, provided the `randomUUID`
supply never repeats a value (injectivity of the generator). -/
theorem create_ids_distinct (idGen : Nat → String)
    (hinj : Function.Injective idGen) (ops : List StoreOp) :
    (idGen 0 :: idGen 1 :: issuedIds (mkMemStorage idGen) ops).Nodup := by
  rw [issuedIds_eq_range ops (mkMemStorage idGen)]
  show (idGen 0 :: idGen 1 :: (List.range' 2 (numCreates ops)).map idGen).Nodup
  have hrange : idGen 0 :: idGen 1 ::
      (List.range' 2 (numCreates ops)).map idGen
      = (List.range' 0 (numCreates ops + 2)).map idGen := by
    simp [List.range']
  rw [hrange]
  exact (List.nodup_range' 0 (numCreates ops + 2) 1 Nat.one_pos).map hinj

/-- A concrete collision-free id supply used by witnesses. -/
def wGen : Nat → String := fun n => String.mk (List.replicate n 'a')

theorem wGen_injective : Function.Injective wGen := by
  intro a b h
  have h2 := congrArg (fun s => s.data.length) h
  simpa [wGen] using h2

/-- A concrete insert payload used by witnesses. -/
def wInsert : InsertProject :=
  { title := "X", description := "d", image := "i", tech := ["t"] }

/-- Witness for C3 at a concrete generator and operation sequence. -/
theorem create_ids_distinct_witness :
    (wGen 0 :: wGen 1 ::
      issuedIds (mkMemStorage wGen) [StoreOp.create wInsert, StoreOp.del "a"]).Nodup :=
  create_ids_distinct wGen wGen_injective [StoreOp.create wInsert, StoreOp.del "a"]

/-- A concrete seeded store used by witnesses.  Its seed keys are `wGen 0`
(the empty string) and `wGen 1` (`"a"`). -/
def wStore : MemStorage := mkMemStorage wGen

/-- A concrete valid request body used by witnesses; it parses to
`wInsert`. -/
def wBody : Json :=
  Json.obj [("title", Json.str "X"), ("description", Json.str "d"),
            ("image", Json.str "i"), ("tech", Json.arr [Json.str "t"])]

/-- A concrete invalid request body (its `title` field is not a string and
the other fields are missing). -/
def wBadBody : Json := Json.obj [("title", Json.num 3)]

/-- C4: updating an unknown id signals NotFound (HTTP 404) and leaves the
collection completely unchanged; updating a present id replaces that
record's fields while keeping the same id, returns the updated record, and
touches no other record. -/
theorem updateProject_spec (s : MemStorage) (id : String) (ip : InsertProject)
    (body : Json) :
    (mapHas s.projects id = false →
       updateProject s id ip = (none, s) ∧
       (safeParseInsertProject body = some ip →
         (putProjectRoute s id body).1.status = 404 ∧
         (putProjectRoute s id body).2 = s)) ∧
    (mapHas s.projects id = true →
       (updateProject s id ip).1 = some (projOf id ip) ∧
       Option.map Project.id (updateProject s id ip).1 = some id ∧
       mapGet (updateProject s id ip).2.projects id = some (projOf id ip) ∧
       (∀ k, k ≠ id →
         mapGet (updateProject s id ip).2.projects k = mapGet s.projects k) ∧
       (updateProject s id ip).2.projects.length = s.projects.length) := by
  constructor
  · intro h
    have hup : updateProject s id ip = (none, s) := by
      unfold updateProject
      rw [if_neg (by simp [h])]
    refine ⟨hup, ?_⟩
    intro hparse
    constructor
    · simp [putProjectRoute, hparse, hup]
    · simp [putProjectRoute, hparse, hup]
  · intro h
    have hfst : (updateProject s id ip).1 = some (projOf id ip) := by
      unfold updateProject
      rw [if_pos h]
    have hsnd : (updateProject s id ip).2.projects
        = mapSet s.projects id (projOf id ip) := by
      unfold updateProject
      rw [if_pos h]
    refine ⟨hfst, ?_, ?_, ?_, ?_⟩
    · rw [hfst]
      simp [projOf]
    · rw [hsnd]
      exact mapGet_mapSet_self s.projects id (projOf id ip)
    · intro k hk
      rw [hsnd]
      exact mapGet_mapSet_other s.projects id k (projOf id ip) hk
    · rw [hsnd]
      simp [mapSet, h]

/-- Witness for C4: updates against the concrete seeded store, at an
unknown id and at the present seed id `"a"`. -/
theorem updateProject_spec_witness :
    (updateProject wStore "zzz" wInsert = (none, wStore) ∧
      (putProjectRoute wStore "zzz" wBody).1.status = 404 ∧
      (putProjectRoute wStore "zzz" wBody).2 = wStore) ∧
    ((updateProject wStore "a" wInsert).1 = some (projOf "a" wInsert) ∧
      mapGet (updateProject wStore "a" wInsert).2.projects "a"
        = some (projOf "a" wInsert) ∧
      mapGet (updateProject wStore "a" wInsert).2.projects ""
        = mapGet wStore.projects "") :=
  ⟨⟨((updateProject_spec wStore "zzz" wInsert wBody).1 (by decide)).1,
    (((updateProject_spec wStore "zzz" wInsert wBody).1 (by decide)).2
      (by decide)).1,
    (((updateProject_spec wStore "zzz" wInsert wBody).1 (by decide)).2
      (by decide)).2⟩,
   ⟨((updateProject_spec wStore "a" wInsert wBody).2 (by decide)).1,
    ((updateProject_spec wStore "a" wInsert wBody).2 (by decide)).2.2.1,
    ((updateProject_spec wStore "a" wInsert wBody).2 (by decide)).2.2.2.1
      "" (by decide)⟩⟩

/-- C5: deleteProject returns whether a record with the id existed; on an
unknown id it returns false (HTTP 404) and changes nothing; on an existing
id it returns true, removes that record, and keeps every other record. -/
theorem deleteProject_spec (s : MemStorage) (id : String) :
    ((deleteProject s id).1 = true ↔ id ∈ s.projects.map Prod.fst) ∧
    (id ∉ s.projects.map Prod.fst →
       deleteProject s id = (false, s) ∧
       (deleteProjectRoute s id).1.status = 404 ∧
       (deleteProjectRoute s id).2 = s) ∧
    (id ∈ s.projects.map Prod.fst →
       (deleteProject s id).1 = true ∧
       id ∉ ((deleteProject s id).2.projects).map Prod.fst ∧
       (∀ kv ∈ s.projects, kv.1 ≠ id → kv ∈ (deleteProject s id).2.projects) ∧
       ((deleteProject s id).2.projects).Sublist s.projects ∧
       (deleteProjectRoute s id).1.status = 200) := by
  refine ⟨mapHas_iff_mem_keys s.projects id, ?_, ?_⟩
  · intro hmem
    have hfalse : mapHas s.projects id = false := by
      rcases hb : mapHas s.projects id
      · rfl
      · exact absurd ((mapHas_iff_mem_keys _ _).mp hb) hmem
    have hdel : deleteProject s id = (false, s) := by
      unfold deleteProject
      rw [hfalse, mapDelete_of_not_has _ _ hfalse]
    refine ⟨hdel, ?_, ?_⟩
    · simp [deleteProjectRoute, hdel]
    · simp [deleteProjectRoute, hdel]
  · intro hmem
    have htrue : mapHas s.projects id = true :=
      (mapHas_iff_mem_keys _ _).mpr hmem
    refine ⟨htrue, ?_, ?_, ?_, ?_⟩
    · intro hmem2
      rcases List.mem_map.mp hmem2 with ⟨kv, hkv, hfst⟩
      have hp := (List.mem_filter.mp hkv).2
      rw [hfst] at hp
      simp at hp
    · intro kv hkv hne
      exact List.mem_filter.mpr ⟨hkv, by simp [hne]⟩
    · exact List.filter_sublist s.projects
    · have hdel : deleteProject s id
          = (true, { s with projects := mapDelete s.projects id }) := by
        unfold deleteProject
        rw [htrue]
      simp [deleteProjectRoute, hdel]

/-- The first seed entry of the concrete store, keyed by `wGen 0`. -/
def wEntry : String × Project := wStore.projects.getD 0 ("", projOf "" wInsert)

/-- Witness for C5: deletes against the concrete seeded store, at an
unknown id and at the present seed id `"a"`; the seed record keyed by the
other id survives. -/
theorem deleteProject_spec_witness :
    (deleteProject wStore "zzz" = (false, wStore) ∧
      (deleteProjectRoute wStore "zzz").1.status = 404) ∧
    ((deleteProject wStore "a").1 = true ∧
      "a" ∉ ((deleteProject wStore "a").2.projects).map Prod.fst ∧
      wEntry ∈ (deleteProject wStore "a").2.projects ∧
      (deleteProjectRoute wStore "a").1.status = 200) :=
  ⟨⟨((deleteProject_spec wStore "zzz").2.1 (by decide)).1,
    ((deleteProject_spec wStore "zzz").2.1 (by decide)).2.1⟩,
   ⟨((deleteProject_spec wStore "a").2.2 (by decide)).1,
    ((deleteProject_spec wStore "a").2.2 (by decide)).2.1,
    ((deleteProject_spec wStore "a").2.2 (by decide)).2.2.1
      wEntry (by decide) (by decide),
    ((deleteProject_spec wStore "a").2.2 (by decide)).2.2.2.2⟩⟩

/-- C6: the ProfileStore replace operation unconditionally overwrites the
singleton profile with the given value and returns it, with no validation
and no error path; the skills list is replaced entirely, so a skill absent
from the new value is absent afterwards. -/
theorem updateProfile_replaces (s : MemStorage) (p : Profile) :
    (updateProfile s p).1 = p ∧
    (updateProfile s p).2.profile = p ∧
    getProfile (updateProfile s p).2 = p ∧
    (putProfileRoute s p).1 = { status := 200, body := ResBody.profileVal p } ∧
    (putProfileRoute s p).2.profile = p ∧
    (∀ sk, sk ∉ p.skills → sk ∉ (updateProfile s p).2.profile.skills) := by
  refine ⟨rfl, rfl, rfl, rfl, rfl, ?_⟩
  intro sk h
  exact h

/-- A concrete replacement profile used by witnesses; its skills list lacks
`"AWS"`, which the seed profile has. -/
def wProfile : Profile := { defaultProfile with skills := ["React", "Node.js"] }

/-- Witness for C6: replacing the seeded profile with `wProfile` drops the
prior skill `"AWS"`. -/
theorem updateProfile_replaces_witness :
    (updateProfile wStore wProfile).2.profile = wProfile ∧
    "AWS" ∈ (getProfile wStore).skills ∧
    "AWS" ∉ (updateProfile wStore wProfile).2.profile.skills :=
  ⟨(updateProfile_replaces wStore wProfile).2.1,
   by decide,
   (updateProfile_replaces wStore wProfile).2.2.2.2.2 "AWS" (by decide)⟩

/-- C7: any request body rejected by the project schema makes both
POST /api/projects and PUT /api/projects/:id answer 400 carrying a
structured error, and neither route touches the store. -/
theorem invalid_body_yields_400 (s : MemStorage) (id : String) (body : Json)
    (h : safeParseInsertProject body = none) :
    (postProjectsRoute s body).1
        = { status := 400, body := ResBody.validationError } ∧
    (postProjectsRoute s body).2 = s ∧
    (putProjectRoute s id body).1
        = { status := 400, body := ResBody.validationError } ∧
    (putProjectRoute s id body).2 = s := by
  refine ⟨?_, ?_, ?_, ?_⟩ <;> simp [postProjectsRoute, putProjectRoute, h]

/-- Witness for C7 at the concrete malformed body `wBadBody`. -/
theorem invalid_body_yields_400_witness :
    (postProjectsRoute wStore wBadBody).1
        = { status := 400, body := ResBody.validationError } ∧
    (postProjectsRoute wStore wBadBody).2 = wStore ∧
    (putProjectRoute wStore "a" wBadBody).1
        = { status := 400, body := ResBody.validationError } ∧
    (putProjectRoute wStore "a" wBadBody).2 = wStore :=
  invalid_body_yields_400 wStore "a" wBadBody (by decide)

/-- C1 (counterexample to the claim as stated): when the pre-mutation
cache is `undefined` (`none`), the failing create's onError
`setQueryData(key, undefined)` is a no-op, so the cache after rollback is
not the snapshot and still carries the optimistic placeholder record. -/
theorem rollback_none_keeps_placeholder :
    (runMutation none (MutationOp.create wInsert 5) false []).afterOutcome
        ≠ none ∧
    tempIdOf 5 ∈
      (((runMutation none (MutationOp.create wInsert 5) false
          []).afterOutcome).getD []).map Project.id := by
  decide

/-- C1 (amended): for every project mutation (create, update, delete)
whose pre-mutation cache snapshot is defined, if the remote write fails,
the onError handler restores the project cache exactly to that snapshot;
in particular the temporary placeholder record of a failed create is gone
after rollback.  (When the snapshot is `undefined`, the restoring
`setQueryData` is a no-op and the optimistic view survives until the
refetch — see `rollback_none_keeps_placeholder`.) -/
theorem rollback_restores_snapshot (l : List Project)
    (op : MutationOp) (serverTruth : List Project) :
    (runMutation (some l) op false serverTruth).afterOutcome = some l ∧
    (runMutation (some l) op false serverTruth).afterOutcome
        = (runMutation (some l) op false serverTruth).snapshot ∧
    (∀ values now, op = MutationOp.create values now →
      tempIdOf now ∉ l.map Project.id →
      tempIdOf now ∉
        (((runMutation (some l) op false serverTruth).afterOutcome).getD
          []).map Project.id) := by
  refine ⟨rfl, rfl, ?_⟩
  intro values now _ hmem
  exact hmem

/-- Witness for C1: a failing create against a defined one-project cache
rolls back to the original cache, without the placeholder record. -/
theorem rollback_restores_snapshot_witness :
    (runMutation (some [projOf "a" wInsert]) (MutationOp.create wInsert 5)
        false []).afterOutcome = some [projOf "a" wInsert] ∧
    tempIdOf 5 ∉
      (((runMutation (some [projOf "a" wInsert]) (MutationOp.create wInsert 5)
          false []).afterOutcome).getD []).map Project.id :=
  ⟨(rollback_restores_snapshot [projOf "a" wInsert]
      (MutationOp.create wInsert 5) []).1,
   (rollback_restores_snapshot [projOf "a" wInsert]
      (MutationOp.create wInsert 5) []).2.2 wInsert 5 rfl (by decide)⟩

/-- C2: for every mutation invocation (create, update, delete) and on both
the success and the failure path, the onSettled step runs and triggers the
full refetch: the cache after settling is the refetched server truth, so no
path through a mutation skips the refetch. -/
theorem settled_always_refetches (cache0 : Option (List Project))
    (op : MutationOp) (remoteOk : Bool) (serverTruth : List Project) :
    (runMutation cache0 op remoteOk serverTruth).settled = some serverTruth ∧
    (runMutation cache0 op true serverTruth).settled
        = (runMutation cache0 op false serverTruth).settled :=
  ⟨rfl, rfl⟩

/-- C8: the optimistic Applying step computes the new cache from the
current one by the per-operation shape: create appends one record carrying
the temporary placeholder id (n projects become n+1, one of them with the
placeholder id), update replaces the fields of the record whose id matches
while keeping its id, delete filters out the record with the given id; and
the pre-mutation snapshot is retained. -/
theorem optimistic_apply_shapes (l : List Project) (values : InsertProject)
    (id : String) (now : Nat) (remoteOk : Bool) (serverTruth : List Project) :
    ((runMutation (some l) (MutationOp.create values now) remoteOk
        serverTruth).optimistic = some (l ++ [projOf (tempIdOf now) values]) ∧
      (l ++ [projOf (tempIdOf now) values]).length = l.length + 1 ∧
      tempIdOf now ∈ (l ++ [projOf (tempIdOf now) values]).map Project.id) ∧
    ((runMutation (some l) (MutationOp.update id values) remoteOk
        serverTruth).optimistic
      = some (l.map (fun p => if p.id = id then projOf p.id values else p))) ∧
    ((runMutation (some l) (MutationOp.del id) remoteOk
        serverTruth).optimistic
      = some (l.filter (fun p => decide (p.id ≠ id)))) ∧
    (∀ op : MutationOp,
      (runMutation (some l) op remoteOk serverTruth).snapshot = some l) := by
  refine ⟨⟨rfl, by simp, by simp [projOf]⟩, ?_, ?_, fun op => rfl⟩
  · show some (l.map _) = some (l.map _)
    congr 1
    apply List.map_congr_left
    intro p _
    by_cases h : p.id = id <;> simp [h, projOf]
  · show some (l.filter _) = some (l.filter _)
    congr 1
    apply List.filter_congr
    intro p _
    by_cases h : p.id = id <;> simp [h]

/-- C10: the implemented bio generator is a deterministic pure function of
`title` and `skills`: two invocations of POST /api/generate-bio with equal
inputs return the identical bio string, and that string is never empty. -/
theorem generate_bio_deterministic (t1 t2 : String) (s1 s2 : List String)
    (ht : t1 = t2) (hs : s1 = s2) :
    generateBio t1 s1 = generateBio t2 s2 ∧
    generateBioRoute t1 s1 = generateBioRoute t2 s2 ∧
    generateBio t1 s1 ≠ "" := by
  subst ht
  subst hs
  refine ⟨rfl, rfl, ?_⟩
  have hlen : 0 < (generateBio t1 s1).length := by
    have h13 : 0 < "A passionate ".length := by decide
    simp only [generateBio, String.length_append]
    omega
  intro h
  rw [h] at hlen
  simp at hlen

/-- Witness for C10 at concrete inputs. -/
theorem generate_bio_deterministic_witness :
    generateBio "Dev" ["React", "AWS"] = generateBio "Dev" ["React", "AWS"] ∧
    generateBioRoute "Dev" ["React", "AWS"]
        = generateBioRoute "Dev" ["React", "AWS"] ∧
    generateBio "Dev" ["React", "AWS"] ≠ "" :=
  generate_bio_deterministic "Dev" "Dev" ["React", "AWS"] ["React", "AWS"]
    rfl rfl
